import Mathlib

/-!
Shallow embedding of the kle-serial library (a Rust deserialiser for
Keyboard Layout Editor JSON documents) and proofs about it.

The definitions below are transcribed from the crate's sources:
  * `src/utils.rs`   — bounded integers, the legend permutation tables and
    `realign_legends`;
  * `src/de/mod.rs`  — the property cursor `KleProps` with `update`,
    `next_key`, `next_line`, `build_key`, and the key iterator;
  * `src/de/json.rs` — the raw JSON data model (`KlePropsObject`,
    `KleMetadata`, `KleLegendsOrProps`, `KleKeyboard`) and its parser;
  * `src/lib.rs`     — the public `Keyboard` / `KeyIterator` entry points;
  * `src/error.rs`   — the crate error taxonomy.

Numeric geometry (`f64` in Rust, generic over `Real`) is modelled with `Rat`,
which supplies the zero, one, addition and comparison operations the code
uses.  Rust's stable `sort_by_key` is modelled with Mathlib's (stable)
`List.insertionSort`.  The external CSS colour parser (crate
`csscolorparser`, an external collaborator of this system) is threaded as an
explicit function argument `css : String → Option Color`.
-/

namespace Kle

/-- Number of legends on a key (`NUM_LEGENDS` in `src/lib.rs`). -/
def NUM_LEGENDS : Nat := 12

/-- 8-bit RGBA colour (`rgb::RGBA8` re-exported as `Color` in `src/lib.rs`).
Components are modelled as `Nat` values. -/
structure Color where
  r : Nat
  g : Nat
  b : Nat
  a : Nat
deriving DecidableEq, Repr

/-- Default background colour `#EEEEEE` (`color::BACKGROUND`). -/
def color.BACKGROUND : Color := ⟨0xEE, 0xEE, 0xEE, 0xFF⟩

/-- Default key colour `#CCCCCC` (`color::KEY`). -/
def color.KEY : Color := ⟨0xCC, 0xCC, 0xCC, 0xFF⟩

/-- Default legend colour `#000000` (`color::LEGEND`). -/
def color.LEGEND : Color := ⟨0x00, 0x00, 0x00, 0xFF⟩

/-- A single legend (`Legend` in `src/lib.rs`). -/
structure Legend where
  text : String
  size : Nat
  color : Color
deriving DecidableEq, Repr

/-- Error returned by `BoundedUsize::new` (`BoundsError` in `src/utils.rs`). -/
structure BoundsError where
deriving DecidableEq, Repr

/-- `BoundedUsize<MAX, DEF>` from `src/utils.rs`: a `usize` that is at most
`MAX`.  The Rust newtype guarantees the bound through its constructors, so
the embedding carries the bound as a proof field. -/
structure BoundedUsize (MAX DEF : Nat) where
  val : Nat
  isLe : val ≤ MAX

instance {m d : Nat} : DecidableEq (BoundedUsize m d) := fun a b =>
  if h : a.val = b.val then
    isTrue (by cases a; cases b; cases h; rfl)
  else
    isFalse (fun hh => h (congrArg BoundedUsize.val hh))

/-- `BoundedUsize::new` (`src/utils.rs` lines 17-23). -/
def BoundedUsize.new (MAX DEF : Nat) (value : Nat) :
    Except BoundsError (BoundedUsize MAX DEF) :=
  if h : value ≤ MAX then .ok ⟨value, h⟩ else .error ⟨⟩

/-- The `Unexpected` input description of a serde value error. -/
inductive Unexpected where
  | unsigned (v : Nat)
  | str (s : String)
  | other (desc : String)
deriving DecidableEq, Repr

/-- The serde-level deserialisation errors raised by the crate (all become a
`serde_json::Error` for the caller). -/
inductive DeError where
  | invalidValue (unexp : Unexpected) (exp : String)
  | invalidType (unexp : Unexpected) (exp : String)
  | custom (msg : String)
deriving DecidableEq, Repr

/-- The crate error taxonomy (`Error` in `src/error.rs`): the alignment kind
and the wrapped-JSON kind. -/
inductive Error where
  | Alignment (v : Nat)
  | Json (e : DeError)
deriving DecidableEq, Repr

/-- `impl From<serde_json::Error> for Error` (`src/error.rs` lines 23-27):
every serde error surfaces as the `Json` kind. -/
def Error.fromDe (e : DeError) : Error := .Json e

/-- `BoundedUsize::deserialize` (`src/utils.rs` lines 44-58), applied after
the integer itself has been decoded: an out-of-range value raises serde's
`invalid_value` error naming the value and the valid range. -/
def BoundedUsize.deserialize (MAX DEF : Nat) (font_size : Nat) :
    Except DeError (BoundedUsize MAX DEF) :=
  match BoundedUsize.new MAX DEF font_size with
  | .ok v => .ok v
  | .error _ => .error (.invalidValue (.unsigned font_size)
      ("0 <= x <= " ++ toString MAX))

/-- `FontSize = BoundedUsize<9, 3>` (`src/utils.rs`). -/
def FontSize : Type := BoundedUsize 9 3

instance : DecidableEq FontSize := inferInstanceAs (DecidableEq (BoundedUsize 9 3))

/-- `FontSize::default()` is `3`. -/
def FontSize.default : FontSize := ⟨3, by decide⟩

def FontSize.deserialize (v : Nat) : Except DeError FontSize :=
  BoundedUsize.deserialize 9 3 v

/-- The eight fixed permutation tables (`LEGEND_MAPPING` in `src/utils.rs`
lines 69-78), mapping raw legend slot to canonical display slot per
alignment code. -/
def LEGEND_MAPPING : List (List Nat) :=
  [ [0, 6, 2, 8, 9, 11, 3, 5, 1, 4, 7, 10],   -- 0 = no centering
    [1, 7, 0, 2, 9, 11, 4, 3, 5, 6, 8, 10],   -- 1 = center x
    [3, 0, 5, 1, 9, 11, 2, 6, 4, 7, 8, 10],   -- 2 = center y
    [4, 0, 1, 2, 9, 11, 3, 5, 6, 7, 8, 10],   -- 3 = center x & y
    [0, 6, 2, 8, 10, 9, 3, 5, 1, 4, 7, 11],   -- 4 = center front (default)
    [1, 7, 0, 2, 10, 3, 4, 5, 6, 8, 9, 11],   -- 5 = center front & x
    [3, 0, 5, 1, 10, 2, 6, 7, 4, 8, 9, 11],   -- 6 = center front & y
    [4, 0, 1, 2, 10, 3, 5, 6, 7, 8, 9, 11] ]  -- 7 = center front & x & y

/-- `MAX_ALIGNMENT = LEGEND_MAPPING.len() - 1` (`src/utils.rs`). -/
def MAX_ALIGNMENT : Nat := LEGEND_MAPPING.length - 1

/-- `Alignment = BoundedUsize<MAX_ALIGNMENT, 4>` (`src/utils.rs`). -/
def Alignment : Type := BoundedUsize MAX_ALIGNMENT 4

instance : DecidableEq Alignment :=
  inferInstanceAs (DecidableEq (BoundedUsize MAX_ALIGNMENT 4))

/-- `Alignment::default()` is `4`. -/
def Alignment.default : Alignment := ⟨4, by decide⟩

def Alignment.deserialize (v : Nat) : Except DeError Alignment :=
  BoundedUsize.deserialize MAX_ALIGNMENT 4 v

/-- Comparison on the key component, used to model Rust's stable
`sort_by_key(|el| el.0)` in `realign_legends`. -/
def keyLe {α : Type} (p q : Nat × α) : Prop := p.1 ≤ q.1

instance {α : Type} : DecidableRel (keyLe (α := α)) := fun p q =>
  inferInstanceAs (Decidable (p.1 ≤ q.1))

instance {α : Type} : IsTotal (Nat × α) keyLe :=
  ⟨fun p q => Nat.le_total p.1 q.1⟩

instance {α : Type} : IsTrans (Nat × α) keyLe :=
  ⟨fun _ _ _ h1 h2 => Nat.le_trans h1 h2⟩

/-- `realign_legends` (`src/utils.rs` lines 80-92): zip the alignment's
mapping row with the incoming legend slots (truncating to the shorter of
the two), stably sort the pairs by target slot, then emit the first
`NUM_LEGENDS` values in that order, padding with `none`.  The output models
the `[Option<Legend>; NUM_LEGENDS]` array as a 12-element list. -/
def realign_legends (values : List (Option Legend)) (alignment : Alignment) :
    List (Option Legend) :=
  let mapping := LEGEND_MAPPING.getD alignment.val []
  let sorted := List.insertionSort keyLe (mapping.zip values)
  let vals := sorted.map Prod.snd
  (List.range NUM_LEGENDS).map (fun i => vals.getD i none)

/-- A key switch (`Switch` in `src/lib.rs`). -/
structure Switch where
  mount : String
  brand : String
  typ : String
deriving DecidableEq, Repr

/-- A single key of the canonical model (`Key` in `src/lib.rs`). -/
structure Key where
  legends : List (Option Legend)
  color : Color
  x : Rat
  y : Rat
  width : Rat
  height : Rat
  x2 : Rat
  y2 : Rat
  width2 : Rat
  height2 : Rat
  rotation : Rat
  rx : Rat
  ry : Rat
  profile : String
  switch : Switch
  ghosted : Bool
  stepped : Bool
  homing : Bool
  decal : Bool
deriving DecidableEq, Repr

/-- The raw property-overlay object (`KlePropsObject` in `src/de/json.rs`
lines 73-103): every recognised field is optional. -/
structure KlePropsObject where
  x : Option Rat
  y : Option Rat
  w : Option Rat
  h : Option Rat
  x2 : Option Rat
  y2 : Option Rat
  w2 : Option Rat
  h2 : Option Rat
  r : Option Rat
  rx : Option Rat
  ry : Option Rat
  l : Option Bool
  n : Option Bool
  d : Option Bool
  g : Option Bool
  sm : Option String
  sb : Option String
  st : Option String
  c : Option Color
  t : Option (List (Option Color))
  a : Option Alignment
  p : Option String
  f : Option FontSize
  f2 : Option FontSize
  fa : Option (List FontSize)

/-- `KlePropsObject::default()`: all fields absent. -/
def KlePropsObject.default : KlePropsObject :=
  ⟨none, none, none, none, none, none, none, none, none, none, none, none,
   none, none, none, none, none, none, none, none, none, none, none, none,
   none⟩

/-- The property cursor (`KleProps` in `src/de/mod.rs` lines 49-83).  The
12-slot arrays `ta` and `fa` are modelled as 12-element lists. -/
structure KleProps where
  -- Per-key properties
  x : Rat
  y : Rat
  w : Rat
  h : Rat
  x2 : Rat
  y2 : Rat
  w2 : Rat
  h2 : Rat
  l : Bool  -- stepped
  n : Bool  -- homing
  d : Bool  -- decal
  -- Persistent properties
  r : Rat
  rx : Rat
  ry : Rat
  g : Bool                -- ghosted
  sm : String             -- switch mount
  sb : String             -- switch brand
  st : String             -- switch type
  c : Color               -- color
  t : Color               -- fallback legend color
  ta : List Color         -- legend color array
  a : Alignment           -- alignment
  p : String              -- profile
  f : FontSize            -- fallback font size
  fa : List FontSize      -- font size array

/-- `KleProps::default()` (`src/de/mod.rs` lines 216-249). -/
def KleProps.default : KleProps where
  x := 0
  y := 0
  w := 1
  h := 1
  x2 := 0
  y2 := 0
  w2 := 1
  h2 := 1
  l := false
  n := false
  d := false
  r := 0
  rx := 0
  ry := 0
  g := false
  sm := ""
  sb := ""
  st := ""
  c := color.KEY
  t := color.LEGEND
  ta := List.replicate NUM_LEGENDS color.LEGEND
  a := Alignment.default
  p := ""
  f := FontSize.default
  fa := List.replicate NUM_LEGENDS FontSize.default

/-- `KleProps::update` (`src/de/mod.rs` lines 89-149): merge one property
overlay into the cursor. -/
def KleProps.update (self : KleProps) (props : KlePropsObject) : KleProps :=
  let f := props.f.getD self.f
  let fa :=
    match props.fa with
    | some fal =>
      (List.range NUM_LEGENDS).map (fun i =>
        match fal[i]? with
        | some v => if 0 < v.val then v else f
        | none => f)
    | none =>
      match props.f2 with
      | some f2 => (List.range NUM_LEGENDS).map (fun i => if i = 0 then f else f2)
      | none =>
        match props.f with
        | some fv => List.replicate NUM_LEGENDS fv
        | none => self.fa
  let t := ((props.t.bind (fun v => v.head?)).bind id).getD self.t
  let ta :=
    match props.t with
    | some tl => (List.range NUM_LEGENDS).map (fun i => ((tl[i]?).bind id).getD t)
    | none => self.ta
  -- KLE resets x and y to the rotation anchor whenever rx or ry is present
  let xyrxry :=
    if props.rx.isSome || props.ry.isSome then
      let rx := props.rx.getD self.rx
      let ry := props.ry.getD self.ry
      (rx, ry, rx, ry)
    else
      (self.x, self.y, self.rx, self.ry)
  { x := xyrxry.1 + props.x.getD 0
    y := xyrxry.2.1 + props.y.getD 0
    w := props.w.getD 1
    h := props.h.getD 1
    x2 := props.x2.getD 0
    y2 := props.y2.getD 0
    w2 := (props.w2.orElse (fun _ => props.w)).getD 1
    h2 := (props.h2.orElse (fun _ => props.h)).getD 1
    l := props.l.getD false
    n := props.n.getD false
    d := props.d.getD false
    r := props.r.getD self.r
    rx := xyrxry.2.2.1
    ry := xyrxry.2.2.2
    g := props.g.getD self.g
    sm := props.sm.getD self.sm
    sb := props.sb.getD self.sb
    st := props.st.getD self.st
    c := props.c.getD self.c
    t := t
    ta := ta
    a := props.a.getD self.a
    p := props.p.getD self.p
    f := f
    fa := fa }

/-- `KleProps::next_key` (`src/de/mod.rs` lines 151-165): advance x by the
current width and reset the per-key properties. -/
def KleProps.next_key (self : KleProps) : KleProps :=
  { self with
    x := self.x + self.w
    w := 1
    h := 1
    x2 := 0
    y2 := 0
    w2 := 1
    h2 := 1
    l := false
    n := false
    d := false }

/-- `KleProps::next_line` (`src/de/mod.rs` lines 167-172): `next_key`, then
x resets to the rotation anchor and y advances by one. -/
def KleProps.next_line (self : KleProps) : KleProps :=
  let nk := self.next_key
  { nk with x := self.rx, y := self.y + 1 }

/-- Split a character list at newline characters. -/
def linesAux : List Char → List Char → List String
  | [], acc => [String.mk acc.reverse]
  | c :: cs, acc =>
    if c = '\n' then String.mk acc.reverse :: linesAux cs []
    else linesAux cs (c :: acc)

/-- Remove one trailing carriage return, when present. -/
def stripTrailingCr (l : String) : String :=
  match l.data.getLast? with
  | some '\r' => String.mk l.data.dropLast
  | _ => l

/-- `str::lines()` from the Rust standard library: split on `\n`, dropping a
final empty line and stripping a trailing `\r` from each line. -/
def rustLines (s : String) : List String :=
  let parts := linesAux s.data []
  let parts := if parts.getLast? = some "" then parts.dropLast else parts
  parts.map stripTrailingCr

/-- The legend slots passed to realignment by `build_key` (`src/de/mod.rs`
lines 175-185): the blob's lines zipped with the font-size and colour
arrays, an empty line giving an absent legend. -/
def KleProps.legendSlots (self : KleProps) (legends : String) :
    List (Option Legend) :=
  ((rustLines legends).zip (self.fa.zip self.ta)).map (fun x =>
    if x.1 ≠ "" then some ⟨x.1, x.2.1.val, x.2.2⟩ else none)

/-- `KleProps::build_key` (`src/de/mod.rs` lines 174-213). -/
def KleProps.build_key (self : KleProps) (legends : String) : Key :=
  { legends := realign_legends (self.legendSlots legends) self.a
    color := self.c
    x := self.x
    y := self.y
    width := self.w
    height := self.h
    x2 := self.x2
    y2 := self.y2
    width2 := self.w2
    height2 := self.h2
    rotation := self.r
    rx := self.rx
    ry := self.ry
    profile := self.p
    switch := ⟨self.sm, self.sb, self.st⟩
    ghosted := self.g
    stepped := self.l
    homing := self.n
    decal := self.d }

/-- The already-decoded JSON value tree handed to the crate (the external
JSON decoder's output). -/
inductive Json where
  | null
  | bool (b : Bool)
  | num (q : Rat)
  | str (s : String)
  | arr (elems : List Json)
  | obj (fields : List (String × Json))

/-- Short description of a JSON value for serde `invalid_type` errors. -/
def Json.unexpectedOf : Json → Unexpected
  | .null => .other "null"
  | .bool _ => .other "a boolean"
  | .num _ => .other "a number"
  | .str s => .str s
  | .arr _ => .other "a sequence"
  | .obj _ => .other "a map"

/-- `f64::deserialize`: any JSON number. -/
def Json.asRat : Json → Except DeError Rat
  | .num q => .ok q
  | j => .error (.invalidType j.unexpectedOf "a floating point value")

/-- `bool::deserialize`. -/
def Json.asBool : Json → Except DeError Bool
  | .bool b => .ok b
  | j => .error (.invalidType j.unexpectedOf "a boolean")

/-- `String::deserialize`. -/
def Json.asString : Json → Except DeError String
  | .str s => .ok s
  | j => .error (.invalidType j.unexpectedOf "a string")

/-- `usize::deserialize`: a non-negative integer JSON number. -/
def Json.asNat : Json → Except DeError Nat
  | .num q =>
    if q.den = 1 ∧ 0 ≤ q.num then .ok q.num.toNat
    else .error (.invalidType (Unexpected.other "a number") "usize")
  | j => .error (.invalidType j.unexpectedOf "usize")

/-- First binding of a key in a JSON object's field list. -/
def getEntry (fields : List (String × Json)) (name : String) : Option Json :=
  match fields with
  | [] => none
  | (k, v) :: rest => if k = name then some v else getEntry rest name

/-- Deserialise one optional (`serde(default)`) field of a struct: absent or
`null` gives `none`; any other value must satisfy the field parser. -/
def getField (fields : List (String × Json)) (name : String)
    (de : Json → Except DeError α) : Except DeError (Option α) :=
  match getEntry fields name with
  | none => .ok none
  | some .null => .ok none
  | some j => (de j).map some

/-- `color_from_str` (`src/de/json.rs` lines 14-22): delegate to the CSS
colour parser, raising `invalid_value` on failure. -/
def color_from_str (css : String → Option Color) (value : String) :
    Except DeError Color :=
  match css value with
  | some c => .ok c
  | none => .error (.invalidValue (.str value) "a CSS color value")

/-- `de_color` (`src/de/json.rs` lines 24-32) applied to a present field
value: a string parsed as one CSS colour. -/
def de_color (css : String → Option Color) : Json → Except DeError Color
  | .str s => color_from_str css s
  | j => .error (.invalidType j.unexpectedOf "a string")

/-- Parse each line of a colour-list string: blank lines give absent
slots, any unparseable non-blank line fails the whole list. -/
def parseColorLines (css : String → Option Color) :
    List String → Except DeError (List (Option Color))
  | [] => .ok []
  | c :: rest =>
    match (if c ≠ "" then (color_from_str css c).map some else .ok none),
        parseColorLines css rest with
    | .error e, _ => .error e
    | .ok _, .error e => .error e
    | .ok col, .ok cols => .ok (col :: cols)

/-- `de_nl_delimited_colors` (`src/de/json.rs` lines 35-47) applied to a
present field value: a newline-delimited colour list. -/
def de_nl_delimited_colors (css : String → Option Color) :
    Json → Except DeError (List (Option Color))
  | .str s => parseColorLines css (rustLines s)
  | j => .error (.invalidType j.unexpectedOf "a string")

def FontSize.de (j : Json) : Except DeError FontSize :=
  j.asNat.bind FontSize.deserialize

def Alignment.de (j : Json) : Except DeError Alignment :=
  j.asNat.bind Alignment.deserialize

/-- Parse the elements of a font-size array. -/
def parseFontSizes : List Json → Except DeError (List FontSize)
  | [] => .ok []
  | j :: rest =>
    match FontSize.de j, parseFontSizes rest with
    | .error e, _ => .error e
    | .ok _, .error e => .error e
    | .ok fs, .ok rest => .ok (fs :: rest)

/-- `Vec<FontSize>::deserialize`. -/
def fontSizeList (j : Json) : Except DeError (List FontSize) :=
  match j with
  | .arr elems => parseFontSizes elems
  | _ => .error (.invalidType j.unexpectedOf "a sequence")

/-- `KlePropsObject::deserialize` (the serde derive in `src/de/json.rs`
lines 73-103): a JSON object with all-optional recognised fields, unknown
fields ignored. -/
def KlePropsObject.deserialize (css : String → Option Color) (j : Json) :
    Except DeError KlePropsObject :=
  match j with
  | .obj fields => do
    let x ← getField fields "x" Json.asRat
    let y ← getField fields "y" Json.asRat
    let w ← getField fields "w" Json.asRat
    let h ← getField fields "h" Json.asRat
    let x2 ← getField fields "x2" Json.asRat
    let y2 ← getField fields "y2" Json.asRat
    let w2 ← getField fields "w2" Json.asRat
    let h2 ← getField fields "h2" Json.asRat
    let r ← getField fields "r" Json.asRat
    let rx ← getField fields "rx" Json.asRat
    let ry ← getField fields "ry" Json.asRat
    let l ← getField fields "l" Json.asBool
    let n ← getField fields "n" Json.asBool
    let d ← getField fields "d" Json.asBool
    let g ← getField fields "g" Json.asBool
    let sm ← getField fields "sm" Json.asString
    let sb ← getField fields "sb" Json.asString
    let st ← getField fields "st" Json.asString
    let c ← getField fields "c" (de_color css)
    let t ← getField fields "t" (de_nl_delimited_colors css)
    let a ← getField fields "a" Alignment.de
    let p ← getField fields "p" Json.asString
    let f ← getField fields "f" FontSize.de
    let f2 ← getField fields "f2" FontSize.de
    let fa ← getField fields "fa" fontSizeList
    .ok ⟨x, y, w, h, x2, y2, w2, h2, r, rx, ry, l, n, d, g, sm, sb, st, c, t,
         a, p, f, f2, fa⟩
  | _ => .error (.invalidType j.unexpectedOf "struct KlePropsObject")

/-- `KleBackground` (`src/de/json.rs` lines 49-53). -/
structure KleBackground where
  name : Option String
  style : Option String

def KleBackground.default : KleBackground := ⟨none, none⟩

def KleBackground.deserialize (j : Json) : Except DeError KleBackground :=
  match j with
  | .obj fields => do
    let name ← getField fields "name" Json.asString
    let style ← getField fields "style" Json.asString
    .ok ⟨name, style⟩
  | _ => .error (.invalidType j.unexpectedOf "struct KleBackground")

/-- `KleMetadata` (`src/de/json.rs` lines 55-71): camelCase field names,
all optional, unknown fields ignored. -/
structure KleMetadata where
  author : Option String
  backcolor : Option Color
  background : Option KleBackground
  name : Option String
  notes : Option String
  radii : Option String
  switch_mount : Option String
  switch_brand : Option String
  switch_type : Option String
  css : Option String
  pcb : Option Bool
  plate : Option Bool

def KleMetadata.default : KleMetadata :=
  ⟨none, none, none, none, none, none, none, none, none, none, none, none⟩

/-- The JSON keys recognised by `KleMetadata` (after camelCase renaming). -/
def kleMetadataKeys : List String :=
  ["author", "backcolor", "background", "name", "notes", "radii",
   "switchMount", "switchBrand", "switchType", "css", "pcb", "plate"]

def KleMetadata.deserialize (css : String → Option Color) (j : Json) :
    Except DeError KleMetadata :=
  match j with
  | .obj fields => do
    let author ← getField fields "author" Json.asString
    let backcolor ← getField fields "backcolor" (de_color css)
    let background ← getField fields "background" KleBackground.deserialize
    let name ← getField fields "name" Json.asString
    let notes ← getField fields "notes" Json.asString
    let radii ← getField fields "radii" Json.asString
    let switch_mount ← getField fields "switchMount" Json.asString
    let switch_brand ← getField fields "switchBrand" Json.asString
    let switch_type ← getField fields "switchType" Json.asString
    let cssField ← getField fields "css" Json.asString
    let pcb ← getField fields "pcb" Json.asBool
    let plate ← getField fields "plate" Json.asBool
    .ok ⟨author, backcolor, background, name, notes, radii, switch_mount,
         switch_brand, switch_type, cssField, pcb, plate⟩
  | _ => .error (.invalidType j.unexpectedOf "struct KleMetadata")

/-- A row element (`KleLegendsOrProps` in `src/de/json.rs` lines 106-111):
either a property overlay or a legend blob. -/
inductive KleLegendsOrProps where
  | Props (p : KlePropsObject)
  | Legend (s : String)

/-- The untagged deserialisation of `KleLegendsOrProps`: try the `Props`
variant first, then `Legend`; when both fail serde reports its generic
untagged-enum mismatch error. -/
def KleLegendsOrProps.deserialize (css : String → Option Color) (j : Json) :
    Except DeError KleLegendsOrProps :=
  match KlePropsObject.deserialize css j with
  | .ok p => .ok (.Props p)
  | .error _ =>
    match j with
    | .str s => .ok (.Legend s)
    | _ => .error (.custom
        "data did not match any variant of untagged enum KleLegendsOrProps")

/-- Parse the elements of one row. -/
def parseElems (css : String → Option Color) :
    List Json → Except DeError (List KleLegendsOrProps)
  | [] => .ok []
  | j :: rest =>
    match KleLegendsOrProps.deserialize css j, parseElems css rest with
    | .error e, _ => .error e
    | .ok _, .error e => .error e
    | .ok el, .ok els => .ok (el :: els)

/-- `Vec<KleLegendsOrProps>::deserialize`: one row of the document. -/
def rowDeserialize (css : String → Option Color) (j : Json) :
    Except DeError (List KleLegendsOrProps) :=
  match j with
  | .arr elems => parseElems css elems
  | _ => .error (.invalidType j.unexpectedOf "a sequence")

/-- The untagged `MapOrSeq` helper of `KleKeyboard::deserialize`
(`src/de/json.rs` lines 140-145): a row is tried before metadata. -/
inductive MapOrSeq where
  | Seq (row : List KleLegendsOrProps)
  | Map (meta : KleMetadata)

def MapOrSeq.deserialize (css : String → Option Color) (j : Json) :
    Except DeError MapOrSeq :=
  match rowDeserialize css j with
  | .ok row => .ok (.Seq row)
  | .error _ =>
    match KleMetadata.deserialize css j with
    | .ok meta => .ok (.Map meta)
    | .error _ => .error (.custom
        "data did not match any variant of untagged enum MapOrSeq")

/-- The raw parsed document (`KleKeyboard` in `src/de/json.rs`). -/
structure KleKeyboard where
  meta : KleMetadata
  layout : List (List KleLegendsOrProps)

/-- Parse the remaining top-level elements, each as a row (the serde
`while let Some(row) = seq.next_element()?` loop). -/
def parseRows (css : String → Option Color) :
    List Json → Except DeError (List (List KleLegendsOrProps))
  | [] => .ok []
  | j :: rest =>
    match rowDeserialize css j, parseRows css rest with
    | .error e, _ => .error e
    | .ok _, .error e => .error e
    | .ok row, .ok rows => .ok (row :: rows)

/-- `KleKeyboard::deserialize` (`src/de/json.rs` lines 119-168): the
document must be an array; its first element is either the metadata object
or the first row, and every further element must be a row. -/
def KleKeyboard.deserialize (css : String → Option Color) (j : Json) :
    Except DeError KleKeyboard :=
  match j with
  | .arr elems =>
    match elems with
    | [] => .ok ⟨KleMetadata.default, []⟩
    | first :: rest =>
      match MapOrSeq.deserialize css first with
      | .error e => .error e
      | .ok (.Seq row) =>
        match parseRows css rest with
        | .error e => .error e
        | .ok rows => .ok ⟨KleMetadata.default, row :: rows⟩
      | .ok (.Map meta) =>
        match parseRows css rest with
        | .error e => .error e
        | .ok rows => .ok ⟨meta, rows⟩
  | _ => .error (.invalidType j.unexpectedOf "a sequence")

/-- The background style of a layout (`Background` in `src/lib.rs`). -/
structure Background where
  name : String
  style : String
deriving DecidableEq, Repr

def Background.default : Background := ⟨"", ""⟩

/-- `impl From<KleBackground> for Background` (`src/de/mod.rs` lines 15-23). -/
def Background.fromKle (value : KleBackground) : Background :=
  ⟨value.name.getD Background.default.name,
   value.style.getD Background.default.style⟩

/-- The layout metadata (`Metadata` in `src/lib.rs`). -/
structure Metadata where
  background_color : Color
  background : Background
  radii : String
  name : String
  author : String
  switch : Switch
  plate_mount : Bool
  pcb_mount : Bool
  notes : String
deriving DecidableEq, Repr

/-- `Metadata::default()` (`src/lib.rs` lines 236-250). -/
def Metadata.default : Metadata where
  background_color := color.BACKGROUND
  background := Background.default
  radii := ""
  name := ""
  author := ""
  switch := ⟨"", "", ""⟩
  plate_mount := false
  pcb_mount := false
  notes := ""

/-- `impl From<KleMetadata> for Metadata` (`src/de/mod.rs` lines 25-47). -/
def Metadata.fromKle (value : KleMetadata) : Metadata where
  background_color := value.backcolor.getD Metadata.default.background_color
  background :=
    match value.background with
    | some bg => Background.fromKle bg
    | none => Metadata.default.background
  radii := value.radii.getD Metadata.default.radii
  name := value.name.getD Metadata.default.name
  author := value.author.getD Metadata.default.author
  switch :=
    ⟨value.switch_mount.getD Metadata.default.switch.mount,
     value.switch_brand.getD Metadata.default.switch.brand,
     value.switch_type.getD Metadata.default.switch.typ⟩
  plate_mount := value.plate.getD Metadata.default.plate_mount
  pcb_mount := value.pcb.getD Metadata.default.pcb_mount
  notes := value.notes.getD Metadata.default.notes

/-- The key iterator state (`KleLayoutIterator` in `src/de/mod.rs` lines
251-259): the cursor, the remaining rows, and the rest of the current row. -/
structure KleLayoutIterator where
  state : KleProps
  row_iter : List (List KleLegendsOrProps)
  key_iter : List KleLegendsOrProps

/-- `KleLayoutIterator::new` (`src/de/mod.rs` lines 261-275): preload the
first row (or an empty one) into the element iterator. -/
def KleLayoutIterator.new (kle : List (List KleLegendsOrProps)) :
    KleLayoutIterator :=
  ⟨KleProps.default, kle.drop 1, kle.headD []⟩

/-- Termination measure for the iterator: remaining elements plus the sizes
of the remaining rows. -/
def itMeasure (it : KleLayoutIterator) : Nat :=
  it.key_iter.length + (it.row_iter.map (fun row => row.length + 1)).sum

/-- One step of `Iterator::next for KleLayoutIterator` (`src/de/mod.rs`
lines 283-301), with explicit fuel bounding the number of elements
consumed: property overlays update the cursor and the loop continues; a
legend blob emits the built key followed by `next_key`; when the current
row runs out the next row is started with `next_line`, and a fetched empty
row (or the end of the rows) ends the iteration.  `itMeasure it` steps of
fuel always suffice. -/
def nextFuel : Nat → KleLayoutIterator → Option (Key × KleLayoutIterator)
  | 0, _ => none
  | fuel + 1, it =>
    match it with
    | ⟨ps, rows, .Props pr :: rest⟩ => nextFuel fuel ⟨ps.update pr, rows, rest⟩
    | ⟨ps, rows, .Legend s :: rest⟩ =>
        some (ps.build_key s, ⟨ps.next_key, rows, rest⟩)
    | ⟨_, [], []⟩ => none
    | ⟨_, [] :: _, []⟩ => none
    | ⟨ps, (e :: rest) :: rows, []⟩ => nextFuel fuel ⟨ps.next_line, rows, e :: rest⟩

/-- `Iterator::next` with sufficient fuel. -/
def KleLayoutIterator.next (it : KleLayoutIterator) :
    Option (Key × KleLayoutIterator) :=
  nextFuel (itMeasure it + 1) it

/-- All keys produced by exhausting the iterator, as `collect()` does,
fused into one pass; the fuel again bounds the number of elements
consumed. -/
def keysFuel : Nat → KleLayoutIterator → List Key
  | 0, _ => []
  | fuel + 1, it =>
    match it with
    | ⟨ps, rows, .Props pr :: rest⟩ => keysFuel fuel ⟨ps.update pr, rows, rest⟩
    | ⟨ps, rows, .Legend s :: rest⟩ =>
        ps.build_key s :: keysFuel fuel ⟨ps.next_key, rows, rest⟩
    | ⟨_, [], []⟩ => []
    | ⟨_, [] :: _, []⟩ => []
    | ⟨ps, (e :: rest) :: rows, []⟩ => keysFuel fuel ⟨ps.next_line, rows, e :: rest⟩

/-- The collected key list of the iterator. -/
def KleLayoutIterator.keys (it : KleLayoutIterator) : List Key :=
  keysFuel (itMeasure it + 1) it

/-- The lazily-produced key sequence: repeatedly call `next`, bounded by a
fuel count of calls. -/
def takeKeys : Nat → KleLayoutIterator → List Key
  | 0, _ => []
  | n + 1, it =>
    match it.next with
    | none => []
    | some (k, it2) => k :: takeKeys n it2

/-- The eagerly-collected model (`Keyboard` in `src/lib.rs`). -/
structure Keyboard where
  metadata : Metadata
  keys : List Key

/-- `Keyboard::deserialize` (`src/lib.rs` lines 261-273): parse the raw
document, convert the metadata and collect the iterator's keys. -/
def Keyboard.deserialize (css : String → Option Color) (j : Json) :
    Except DeError Keyboard :=
  (KleKeyboard.deserialize css j).map (fun kk =>
    ⟨Metadata.fromKle kk.meta, (KleLayoutIterator.new kk.layout).keys⟩)

/-- `KeyIterator::deserialize` (`src/lib.rs` lines 279-289): parse the raw
document and return the iterator over its keys, discarding the metadata. -/
def KeyIterator.deserialize (css : String → Option Color) (j : Json) :
    Except DeError KleLayoutIterator :=
  (KleKeyboard.deserialize css j).map (fun kk => KleLayoutIterator.new kk.layout)

/-! ## Helper lemmas -/

theorem max_alignment_eq : MAX_ALIGNMENT = 7 := rfl

theorem legend_mapping_length :
    ∀ a : Nat, a ≤ 7 → (LEGEND_MAPPING.getD a []).length = NUM_LEGENDS := by
  decide

theorem legend_mapping_nodup :
    ∀ a : Nat, a ≤ 7 → (LEGEND_MAPPING.getD a []).Nodup := by
  decide

theorem legend_mapping_surj :
    ∀ a : Nat, a ≤ 7 → ∀ j, j < NUM_LEGENDS →
      ∃ i, i < NUM_LEGENDS ∧ (LEGEND_MAPPING.getD a []).getD i 0 = j := by
  decide

theorem legend_mapping_inj :
    ∀ a : Nat, a ≤ 7 → ∀ i, i < NUM_LEGENDS → ∀ j, j < NUM_LEGENDS → i ≠ j →
      (LEGEND_MAPPING.getD a []).getD i 0 ≠ (LEGEND_MAPPING.getD a []).getD j 0 := by
  decide

theorem map_getD_range {α : Type} (l : List α) (d : α) :
    (List.range l.length).map (fun i => l.getD i d) = l := by
  induction l with
  | nil => rfl
  | cons a l ih =>
    rw [List.length_cons, List.range_succ_eq_map, List.map_cons, List.map_map]
    simp only [Function.comp_def, List.getD_cons_zero, Nat.succ_eq_add_one,
      List.getD_cons_succ]
    rw [ih]

theorem realign_legends_def (values : List (Option Legend)) (al : Alignment) :
    realign_legends values al =
      (List.range NUM_LEGENDS).map (fun i =>
        ((List.insertionSort keyLe
            ((LEGEND_MAPPING.getD al.val []).zip values)).map Prod.snd).getD i
          none) := rfl

/-- With a full 12-slot input, the realigned output is exactly the sorted
value list (no padding occurs). -/
theorem realign_legends_full (values : List (Option Legend)) (al : Alignment)
    (h : values.length = NUM_LEGENDS) :
    realign_legends values al =
      (List.insertionSort keyLe
        ((LEGEND_MAPPING.getD al.val []).zip values)).map Prod.snd := by
  have hb : al.val ≤ 7 := max_alignment_eq ▸ al.isLe
  have hm : (LEGEND_MAPPING.getD al.val []).length = NUM_LEGENDS :=
    legend_mapping_length al.val hb
  have hlen : ((List.insertionSort keyLe
      ((LEGEND_MAPPING.getD al.val []).zip values)).map Prod.snd).length =
      NUM_LEGENDS := by
    rw [List.length_map, List.length_insertionSort, List.length_zip, hm, h,
      Nat.min_self]
  rw [realign_legends_def, ← hlen, map_getD_range]

/-- With a full 12-slot input, realignment permutes the input slots. -/
theorem realign_perm (values : List (Option Legend)) (al : Alignment)
    (h : values.length = NUM_LEGENDS) :
    (realign_legends values al).Perm values := by
  have hb : al.val ≤ 7 := max_alignment_eq ▸ al.isLe
  have hm : (LEGEND_MAPPING.getD al.val []).length = NUM_LEGENDS :=
    legend_mapping_length al.val hb
  rw [realign_legends_full values al h]
  have h1 : ((List.insertionSort keyLe
      ((LEGEND_MAPPING.getD al.val []).zip values)).map Prod.snd).Perm
      (((LEGEND_MAPPING.getD al.val []).zip values).map Prod.snd) :=
    (List.perm_insertionSort keyLe _).map _
  have h2 : ((LEGEND_MAPPING.getD al.val []).zip values).map Prod.snd = values :=
    List.map_snd_zip _ values (by rw [h, hm])
  exact h1.trans (by rw [h2])

/-! ## C1: realignment of a full 12-slot input -/

set_option maxHeartbeats 3200000 in
/-- Placement property of `realign_legends` on a full 12-slot input: the
legend in raw slot `i` lands at output slot `table[alignment][i]`. -/
theorem realign_getD_place (a : Nat) (ha : a ≤ MAX_ALIGNMENT)
    (v0 v1 v2 v3 v4 v5 v6 v7 v8 v9 v10 v11 : Option Legend) :
    ∀ i, i < NUM_LEGENDS →
      (realign_legends [v0, v1, v2, v3, v4, v5, v6, v7, v8, v9, v10, v11] ⟨a, ha⟩).getD
          ((LEGEND_MAPPING.getD a []).getD i 0) none =
        [v0, v1, v2, v3, v4, v5, v6, v7, v8, v9, v10, v11].getD i none := by
  have ha7 : a ≤ 7 := max_alignment_eq ▸ ha
  interval_cases a
  case _ =>
      have hout : realign_legends [v0, v1, v2, v3, v4, v5, v6, v7, v8, v9, v10, v11] ⟨0, ha⟩ =
          [v0, v8, v2, v6, v9, v7, v1, v10, v3, v4, v11, v5] :=
        (realign_legends_full [v0, v1, v2, v3, v4, v5, v6, v7, v8, v9, v10, v11] ⟨0, ha⟩ rfl).trans rfl
      intro i hi
      have hi12 : i < 12 := hi
      rw [hout]
      interval_cases i <;> rfl
  case _ =>
      have hout : realign_legends [v0, v1, v2, v3, v4, v5, v6, v7, v8, v9, v10, v11] ⟨1, ha⟩ =
          [v2, v0, v3, v7, v6, v8, v9, v1, v10, v4, v11, v5] :=
        (realign_legends_full [v0, v1, v2, v3, v4, v5, v6, v7, v8, v9, v10, v11] ⟨1, ha⟩ rfl).trans rfl
      intro i hi
      have hi12 : i < 12 := hi
      rw [hout]
      interval_cases i <;> rfl
  case _ =>
      have hout : realign_legends [v0, v1, v2, v3, v4, v5, v6, v7, v8, v9, v10, v11] ⟨2, ha⟩ =
          [v1, v3, v6, v0, v8, v2, v7, v9, v10, v4, v11, v5] :=
        (realign_legends_full [v0, v1, v2, v3, v4, v5, v6, v7, v8, v9, v10, v11] ⟨2, ha⟩ rfl).trans rfl
      intro i hi
      have hi12 : i < 12 := hi
      rw [hout]
      interval_cases i <;> rfl
  case _ =>
      have hout : realign_legends [v0, v1, v2, v3, v4, v5, v6, v7, v8, v9, v10, v11] ⟨3, ha⟩ =
          [v1, v2, v3, v6, v0, v7, v8, v9, v10, v4, v11, v5] :=
        (realign_legends_full [v0, v1, v2, v3, v4, v5, v6, v7, v8, v9, v10, v11] ⟨3, ha⟩ rfl).trans rfl
      intro i hi
      have hi12 : i < 12 := hi
      rw [hout]
      interval_cases i <;> rfl
  case _ =>
      have hout : realign_legends [v0, v1, v2, v3, v4, v5, v6, v7, v8, v9, v10, v11] ⟨4, ha⟩ =
          [v0, v8, v2, v6, v9, v7, v1, v10, v3, v5, v4, v11] :=
        (realign_legends_full [v0, v1, v2, v3, v4, v5, v6, v7, v8, v9, v10, v11] ⟨4, ha⟩ rfl).trans rfl
      intro i hi
      have hi12 : i < 12 := hi
      rw [hout]
      interval_cases i <;> rfl
  case _ =>
      have hout : realign_legends [v0, v1, v2, v3, v4, v5, v6, v7, v8, v9, v10, v11] ⟨5, ha⟩ =
          [v2, v0, v3, v5, v6, v7, v8, v1, v9, v10, v4, v11] :=
        (realign_legends_full [v0, v1, v2, v3, v4, v5, v6, v7, v8, v9, v10, v11] ⟨5, ha⟩ rfl).trans rfl
      intro i hi
      have hi12 : i < 12 := hi
      rw [hout]
      interval_cases i <;> rfl
  case _ =>
      have hout : realign_legends [v0, v1, v2, v3, v4, v5, v6, v7, v8, v9, v10, v11] ⟨6, ha⟩ =
          [v1, v3, v5, v0, v8, v2, v6, v7, v9, v10, v4, v11] :=
        (realign_legends_full [v0, v1, v2, v3, v4, v5, v6, v7, v8, v9, v10, v11] ⟨6, ha⟩ rfl).trans rfl
      intro i hi
      have hi12 : i < 12 := hi
      rw [hout]
      interval_cases i <;> rfl
  case _ =>
      have hout : realign_legends [v0, v1, v2, v3, v4, v5, v6, v7, v8, v9, v10, v11] ⟨7, ha⟩ =
          [v1, v2, v3, v5, v0, v6, v7, v8, v9, v10, v4, v11] :=
        (realign_legends_full [v0, v1, v2, v3, v4, v5, v6, v7, v8, v9, v10, v11] ⟨7, ha⟩ rfl).trans rfl
      intro i hi
      have hi12 : i < 12 := hi
      rw [hout]
      interval_cases i <;> rfl

/-- C1: for every alignment code in [0,7] and every 12-slot input, the
legend in raw slot `i` lands at output slot `table[alignment][i]`; the
mapping row is injective; output slots not targeted by a populated raw slot
stay empty; and the number of populated output slots equals the number of
populated input slots. -/
theorem claim1_realign_full (a : Nat) (ha : a ≤ MAX_ALIGNMENT)
    (v0 v1 v2 v3 v4 v5 v6 v7 v8 v9 v10 v11 : Option Legend) :
    (∀ i, i < NUM_LEGENDS →
      (realign_legends [v0, v1, v2, v3, v4, v5, v6, v7, v8, v9, v10, v11] ⟨a, ha⟩).getD
          ((LEGEND_MAPPING.getD a []).getD i 0) none =
        [v0, v1, v2, v3, v4, v5, v6, v7, v8, v9, v10, v11].getD i none) ∧
    (∀ i, i < NUM_LEGENDS → ∀ j, j < NUM_LEGENDS → i ≠ j →
      (LEGEND_MAPPING.getD a []).getD i 0 ≠ (LEGEND_MAPPING.getD a []).getD j 0) ∧
    (∀ j, j < NUM_LEGENDS →
      (∀ i, i < NUM_LEGENDS → (LEGEND_MAPPING.getD a []).getD i 0 = j →
        [v0, v1, v2, v3, v4, v5, v6, v7, v8, v9, v10, v11].getD i none = none) →
      (realign_legends [v0, v1, v2, v3, v4, v5, v6, v7, v8, v9, v10, v11] ⟨a, ha⟩).getD j none = none) ∧
    (realign_legends [v0, v1, v2, v3, v4, v5, v6, v7, v8, v9, v10, v11] ⟨a, ha⟩).countP (·.isSome) =
      ([v0, v1, v2, v3, v4, v5, v6, v7, v8, v9, v10, v11] : List (Option Legend)).countP (·.isSome) := by
  have ha7 : a ≤ 7 := max_alignment_eq ▸ ha
  have hplace := realign_getD_place a ha v0 v1 v2 v3 v4 v5 v6 v7 v8 v9 v10 v11
  refine ⟨hplace, legend_mapping_inj a ha7, ?_,
    (realign_perm [v0, v1, v2, v3, v4, v5, v6, v7, v8, v9, v10, v11] ⟨a, ha⟩ rfl).countP_eq _⟩
  intro j hj hemp
  obtain ⟨i, hi, hmi⟩ := legend_mapping_surj a ha7 j hj
  rw [← hmi, hplace i hi]
  exact hemp i hi hmi

/-- Witness for C1 at alignment 4 with a partially-populated input. -/
theorem claim1_realign_full_witness :
    (realign_legends
        [some ⟨"A", 3, color.LEGEND⟩, none, some ⟨"C", 4, color.LEGEND⟩,
         none, none, none, some ⟨"G", 3, color.KEY⟩, none, none, none,
         none, some ⟨"L", 5, color.LEGEND⟩] ⟨4, by decide⟩).getD
      ((LEGEND_MAPPING.getD 4 []).getD 2 0) none = some ⟨"C", 4, color.LEGEND⟩ ∧
    (realign_legends
        [some ⟨"A", 3, color.LEGEND⟩, none, some ⟨"C", 4, color.LEGEND⟩,
         none, none, none, some ⟨"G", 3, color.KEY⟩, none, none, none,
         none, some ⟨"L", 5, color.LEGEND⟩] ⟨4, by decide⟩).countP (·.isSome) =
      ([some ⟨"A", 3, color.LEGEND⟩, none, some ⟨"C", 4, color.LEGEND⟩,
        none, none, none, some ⟨"G", 3, color.KEY⟩, none, none, none,
        none, some ⟨"L", 5, color.LEGEND⟩] :
          List (Option Legend)).countP (·.isSome) := by
  have h := claim1_realign_full 4 (by decide)
    (some ⟨"A", 3, color.LEGEND⟩) none (some ⟨"C", 4, color.LEGEND⟩)
    none none none (some ⟨"G", 3, color.KEY⟩) none none none
    none (some ⟨"L", 5, color.LEGEND⟩)
  exact ⟨h.1 2 (by decide), h.2.2.2⟩

/-! ## C2: out-of-range alignment codes -/

/-- C2 counterexample: a property overlay with alignment code 8 makes the
parse fail, but with the generic malformed-document (serde) error — here
serde's untagged-enum mismatch — and not with the `Alignment` error kind
carrying the value, which the code never constructs. -/
theorem claim2_counterexample :
    KleKeyboard.deserialize (fun _ => none)
        (Json.arr [Json.arr [Json.obj [("a", Json.num 8)], Json.str "A"]]) =
      Except.error (DeError.custom
        "data did not match any variant of untagged enum MapOrSeq") ∧
    Error.fromDe (DeError.custom
        "data did not match any variant of untagged enum MapOrSeq") ≠
      Error.Alignment 8 := by
  exact ⟨rfl, by decide⟩

/-- C2 (amended): for every alignment code outside [0,7] appearing in a
property overlay, the bounds check of `BoundedUsize::deserialize` raises
serde's invalid-value error carrying the exact offending value and the
valid range, and the document parse fails with the serde
(malformed-document) error path — the untagged row-element parser reports
its generic mismatch error — never with the `Alignment` error kind. -/
theorem claim2_alignment_error (v : Nat) (hv : MAX_ALIGNMENT < v) :
    Alignment.deserialize v =
      Except.error (DeError.invalidValue (Unexpected.unsigned v)
        ("0 <= x <= " ++ toString MAX_ALIGNMENT)) ∧
    (∀ css : String → Option Color,
      KleKeyboard.deserialize css
          (Json.arr [Json.arr [Json.obj [("a", Json.num (v : Rat))],
            Json.str "A"]]) =
        Except.error (DeError.custom
          "data did not match any variant of untagged enum MapOrSeq")) ∧
    (∀ e : DeError, Error.fromDe e ≠ Error.Alignment v) := by
  have hnle : ¬ v ≤ MAX_ALIGNMENT := Nat.not_le.mpr hv
  have hdeser : Alignment.deserialize v =
      Except.error (DeError.invalidValue (Unexpected.unsigned v)
        ("0 <= x <= " ++ toString MAX_ALIGNMENT)) := by
    simp [Alignment.deserialize, BoundedUsize.deserialize, BoundedUsize.new,
      hnle]
  have hnat : Json.asNat (Json.num (v : Rat)) = Except.ok v := by
    simp [Json.asNat]
  have hde : Alignment.de (Json.num (v : Rat)) =
      Except.error (DeError.invalidValue (Unexpected.unsigned v)
        ("0 <= x <= " ++ toString MAX_ALIGNMENT)) := by
    rw [Alignment.de, hnat]
    exact hdeser
  refine ⟨hdeser, ?_, fun e => by simp [Error.fromDe]⟩
  intro css
  have hprops : KlePropsObject.deserialize css
      (Json.obj [("a", Json.num (v : Rat))]) =
      Except.error (DeError.invalidValue (Unexpected.unsigned v)
        ("0 <= x <= " ++ toString MAX_ALIGNMENT)) := by
    simp [KlePropsObject.deserialize, getField, getEntry, hde]
    rfl
  simp only [KleKeyboard.deserialize, MapOrSeq.deserialize, rowDeserialize,
    parseElems, KleLegendsOrProps.deserialize]
  rw [hprops]
  rfl

/-! ## C3: rotation anchor resolution -/

/-- C3: if an overlay sets `rx` or `ry`, both anchor coordinates resolve
(explicit value, else previous value) and replace the x/y cursor before the
overlay's x/y deltas are added; if it sets neither, x/y and the anchor
carry over from the current cursor. -/
theorem claim3_rotation_anchor (ps : KleProps) (o : KlePropsObject) :
    (o.rx.isSome ∨ o.ry.isSome →
      (ps.update o).x = o.rx.getD ps.rx + o.x.getD 0 ∧
      (ps.update o).y = o.ry.getD ps.ry + o.y.getD 0 ∧
      (ps.update o).rx = o.rx.getD ps.rx ∧
      (ps.update o).ry = o.ry.getD ps.ry) ∧
    (o.rx = none → o.ry = none →
      (ps.update o).x = ps.x + o.x.getD 0 ∧
      (ps.update o).y = ps.y + o.y.getD 0 ∧
      (ps.update o).rx = ps.rx ∧ (ps.update o).ry = ps.ry) := by
  constructor
  · intro h
    have hb : (o.rx.isSome || o.ry.isSome) = true := by
      rcases h with h | h <;> simp [h]
    refine ⟨?_, ?_, ?_, ?_⟩ <;> simp [KleProps.update, hb]
  · intro h1 h2
    refine ⟨?_, ?_, ?_, ?_⟩ <;> simp [KleProps.update, h1, h2]

/-- Witness for C3: an overlay setting `rx := 2` on a fresh cursor moves the
x cursor to the anchor, while the empty overlay leaves x at 0. -/
theorem claim3_rotation_anchor_witness :
    (KleProps.default.update
        { KlePropsObject.default with rx := some 2 }).x = 2 ∧
    (KleProps.default.update KlePropsObject.default).x = 0 := by
  have h1 := (claim3_rotation_anchor KleProps.default
    { KlePropsObject.default with rx := some 2 }).1 (Or.inl rfl)
  have h2 := (claim3_rotation_anchor KleProps.default
    KlePropsObject.default).2 rfl rfl
  exact ⟨by simpa [KlePropsObject.default] using h1.1,
    by simpa [KlePropsObject.default, KleProps.default] using h2.1⟩

/-! ## C4: font-size resolution -/

/-- C4: the 12-slot font-size array resolves by priority: (a) a supplied
array wins slot-wise when its entry is > 0, else the new fallback; (b) else
a secondary size fills slots 1-11 with slot 0 the fallback; (c) else a bare
fallback fills all 12 slots; (d) else the previous array carries over.  The
two concrete overlays of the claim evaluate accordingly. -/
theorem claim4_font_resolution (ps : KleProps) (o : KlePropsObject) :
    (∀ fal, o.fa = some fal → ∀ i, i < NUM_LEGENDS →
      (ps.update o).fa.getD i FontSize.default =
        (match fal[i]? with
         | some fs => if 0 < fs.val then fs else o.f.getD ps.f
         | none => o.f.getD ps.f)) ∧
    (o.fa = none → ∀ f2, o.f2 = some f2 →
      (ps.update o).fa = (o.f.getD ps.f) :: List.replicate 11 f2) ∧
    (o.fa = none → o.f2 = none → ∀ fv, o.f = some fv →
      (ps.update o).fa = List.replicate NUM_LEGENDS fv) ∧
    (o.fa = none → o.f2 = none → o.f = none → (ps.update o).fa = ps.fa) ∧
    (KleProps.default.update { KlePropsObject.default with
        f := some ⟨2, by decide⟩, f2 := some ⟨4, by decide⟩ }).fa.map
      BoundedUsize.val = [2, 4, 4, 4, 4, 4, 4, 4, 4, 4, 4, 4] ∧
    ((KleProps.default.update { KlePropsObject.default with
        f := some ⟨2, by decide⟩, f2 := some ⟨4, by decide⟩ }).update
        { KlePropsObject.default with f := some ⟨5, by decide⟩ }).fa.map
      BoundedUsize.val = [5, 5, 5, 5, 5, 5, 5, 5, 5, 5, 5, 5] := by
  refine ⟨?_, ?_, ?_, ?_, by rfl, by rfl⟩
  · intro fal hfa i hi
    have hi12 : i < 12 := hi
    simp only [KleProps.update, hfa]
    rw [List.getD_eq_getElem _ _ (by simpa [NUM_LEGENDS] using hi12),
      List.getElem_map, List.getElem_range]
  · intro hfa f2 hf2
    simp only [KleProps.update, hfa, hf2]
    rfl
  · intro hfa hf2 fv hf
    simp only [KleProps.update, hfa, hf2, hf]
  · intro hfa hf2 hf
    simp only [KleProps.update, hfa, hf2, hf]

/-- Witness for C4: array entry 0 falls back, a positive entry wins. -/
theorem claim4_font_resolution_witness :
    (KleProps.default.update { KlePropsObject.default with
        fa := some [⟨0, by decide⟩, ⟨7, by decide⟩] }).fa.getD 0
      FontSize.default = FontSize.default ∧
    (KleProps.default.update { KlePropsObject.default with
        fa := some [⟨0, by decide⟩, ⟨7, by decide⟩] }).fa.getD 1
      FontSize.default = ⟨7, by decide⟩ ∧
    (KleProps.default.update KlePropsObject.default).fa =
      KleProps.default.fa := by
  have h := claim4_font_resolution KleProps.default
    { KlePropsObject.default with fa := some [⟨0, by decide⟩, ⟨7, by decide⟩] }
  have h4 := claim4_font_resolution KleProps.default KlePropsObject.default
  refine ⟨?_, ?_, h4.2.2.2.1 rfl rfl rfl⟩
  · have := h.1 _ rfl 0 (by decide)
    simpa using this
  · have := h.1 _ rfl 1 (by decide)
    simpa using this

/-! ## C5: advance_row -/

/-- C5: `next_line` equals `next_key` followed by resetting x to the
persistent rotation-anchor x (not to 0) and incrementing y by exactly 1,
for every cursor state. -/
theorem claim5_advance_row (ps : KleProps) :
    ps.next_line.x = ps.rx ∧ ps.next_line.y = ps.y + 1 ∧
    ps.next_line = { ps.next_key with x := ps.rx, y := ps.next_key.y + 1 } := by
  exact ⟨rfl, rfl, rfl⟩

/-! ## C6: advance_key -/

/-- C6: `next_key` advances x by exactly the current width, resets every
per-key field to its default, and leaves y and every persistent field
unchanged. -/
theorem claim6_advance_key (ps : KleProps) :
    ps.next_key.x = ps.x + ps.w ∧
    ps.next_key.w = 1 ∧ ps.next_key.h = 1 ∧
    ps.next_key.w2 = 1 ∧ ps.next_key.h2 = 1 ∧
    ps.next_key.x2 = 0 ∧ ps.next_key.y2 = 0 ∧
    ps.next_key.l = false ∧ ps.next_key.n = false ∧ ps.next_key.d = false ∧
    ps.next_key.y = ps.y ∧
    ps.next_key.r = ps.r ∧ ps.next_key.rx = ps.rx ∧ ps.next_key.ry = ps.ry ∧
    ps.next_key.g = ps.g ∧ ps.next_key.sm = ps.sm ∧ ps.next_key.sb = ps.sb ∧
    ps.next_key.st = ps.st ∧ ps.next_key.c = ps.c ∧ ps.next_key.t = ps.t ∧
    ps.next_key.ta = ps.ta ∧ ps.next_key.a = ps.a ∧ ps.next_key.p = ps.p ∧
    ps.next_key.f = ps.f ∧ ps.next_key.fa = ps.fa := by
  exact ⟨rfl, rfl, rfl, rfl, rfl, rfl, rfl, rfl, rfl, rfl, rfl, rfl, rfl,
    rfl, rfl, rfl, rfl, rfl, rfl, rfl, rfl, rfl, rfl, rfl, rfl⟩

/-! ## Iterator lemmas -/

theorem itMeasure_zero (ps : KleProps) (rows : List (List KleLegendsOrProps))
    (elems : List KleLegendsOrProps)
    (h : itMeasure ⟨ps, rows, elems⟩ = 0) : elems = [] ∧ rows = [] := by
  cases elems with
  | cons e rest => simp [itMeasure] at h
  | nil =>
    cases rows with
    | cons row rows' => simp [itMeasure] at h
    | nil => exact ⟨rfl, rfl⟩

theorem keysFuel_congr :
    ∀ n m it, itMeasure it < n → itMeasure it < m →
      keysFuel n it = keysFuel m it := by
  intro n
  induction n with
  | zero => intro m it hn _; exact absurd hn (Nat.not_lt_zero _)
  | succ n ih =>
    intro m it hn hm
    cases m with
    | zero => exact absurd hm (Nat.not_lt_zero _)
    | succ m =>
      obtain ⟨ps, rows, elems⟩ := it
      cases elems with
      | cons e rest =>
        cases e with
        | Props pr =>
          simp only [keysFuel]
          exact ih m ⟨ps.update pr, rows, rest⟩
            (by simp [itMeasure] at hn ⊢; omega)
            (by simp [itMeasure] at hm ⊢; omega)
        | Legend s =>
          simp only [keysFuel]
          rw [ih m ⟨ps.next_key, rows, rest⟩
            (by simp [itMeasure] at hn ⊢; omega)
            (by simp [itMeasure] at hm ⊢; omega)]
      | nil =>
        cases rows with
        | nil => simp only [keysFuel]
        | cons row rows' =>
          cases row with
          | nil => simp only [keysFuel]
          | cons e rest =>
            simp only [keysFuel]
            exact ih m ⟨ps.next_line, rows', e :: rest⟩
              (by simp [itMeasure] at hn ⊢; omega)
              (by simp [itMeasure] at hm ⊢; omega)

theorem nextFuel_some_measure :
    ∀ fuel it k it2, nextFuel fuel it = some (k, it2) →
      itMeasure it2 < itMeasure it := by
  intro fuel
  induction fuel with
  | zero => intro it k it2 h; simp [nextFuel] at h
  | succ fuel ih =>
    intro it k it2 h
    obtain ⟨ps, rows, elems⟩ := it
    cases elems with
    | cons e rest =>
      cases e with
      | Props pr =>
        simp only [nextFuel] at h
        have := ih _ _ _ h
        simp [itMeasure] at this ⊢
        omega
      | Legend s =>
        simp only [nextFuel, Option.some.injEq, Prod.mk.injEq] at h
        obtain ⟨-, h2⟩ := h
        rw [← h2]
        simp [itMeasure]
    | nil =>
      cases rows with
      | nil => simp [nextFuel] at h
      | cons row rows' =>
        cases row with
        | nil => simp [nextFuel] at h
        | cons e rest =>
          simp only [nextFuel] at h
          have := ih _ _ _ h
          simp [itMeasure] at this ⊢
          omega

theorem next_some_measure (it : KleLayoutIterator) (k : Key)
    (it2 : KleLayoutIterator) (h : it.next = some (k, it2)) :
    itMeasure it2 < itMeasure it :=
  nextFuel_some_measure _ it k it2 h

theorem keysFuel_eq_next :
    ∀ fuel it, itMeasure it < fuel →
      keysFuel fuel it =
        (match nextFuel fuel it with
         | none => []
         | some (k, it2) => k :: keysFuel fuel it2) := by
  intro fuel
  induction fuel with
  | zero => intro it h; exact absurd h (Nat.not_lt_zero _)
  | succ fuel ih =>
    intro it h
    obtain ⟨ps, rows, elems⟩ := it
    cases elems with
    | cons e rest =>
      cases e with
      | Props pr =>
        have hlt : itMeasure ⟨ps.update pr, rows, rest⟩ < fuel := by
          simp [itMeasure] at h ⊢; omega
        simp only [keysFuel, nextFuel]
        rw [ih ⟨ps.update pr, rows, rest⟩ hlt]
        cases h2 : nextFuel fuel ⟨ps.update pr, rows, rest⟩ with
        | none => rfl
        | some p =>
          obtain ⟨k, it2⟩ := p
          have hm2 := nextFuel_some_measure fuel _ k it2 h2
          exact congrArg (k :: ·)
            (keysFuel_congr fuel (fuel + 1) it2 (by omega) (by omega))
      | Legend s =>
        have hlt : itMeasure ⟨ps.next_key, rows, rest⟩ < fuel + 1 := by
          simp [itMeasure] at h ⊢; omega
        simp only [keysFuel, nextFuel]
        exact congrArg (ps.build_key s :: ·)
          (keysFuel_congr fuel (fuel + 1) ⟨ps.next_key, rows, rest⟩
            (by simp [itMeasure] at h ⊢; omega) hlt)
    | nil =>
      cases rows with
      | nil => simp only [keysFuel, nextFuel]
      | cons row rows' =>
        cases row with
        | nil => simp only [keysFuel, nextFuel]
        | cons e rest =>
          have hlt : itMeasure ⟨ps.next_line, rows', e :: rest⟩ < fuel := by
            simp [itMeasure] at h ⊢; omega
          simp only [keysFuel, nextFuel]
          rw [ih ⟨ps.next_line, rows', e :: rest⟩ hlt]
          cases h2 : nextFuel fuel ⟨ps.next_line, rows', e :: rest⟩ with
          | none => rfl
          | some p =>
            obtain ⟨k, it2⟩ := p
            have hm2 := nextFuel_some_measure fuel _ k it2 h2
            exact congrArg (k :: ·)
              (keysFuel_congr fuel (fuel + 1) it2 (by omega) (by omega))

/-- Unfolding the collected key list through one `next` step. -/
theorem keys_eq_next (it : KleLayoutIterator) :
    it.keys =
      (match it.next with
       | none => []
       | some (k, it2) => k :: it2.keys) := by
  simp only [KleLayoutIterator.keys, KleLayoutIterator.next]
  rw [keysFuel_eq_next (itMeasure it + 1) it (by omega)]
  cases h : nextFuel (itMeasure it + 1) it with
  | none => rfl
  | some p =>
    obtain ⟨k, it2⟩ := p
    have hm2 := nextFuel_some_measure _ _ k it2 h
    exact congrArg (k :: ·)
      (keysFuel_congr (itMeasure it + 1) (itMeasure it2 + 1) it2
        (by omega) (by omega))

/-- The lazy sequence, run with enough fuel, is exactly the eager
collection. -/
theorem takeKeys_eq_keys :
    ∀ n it, itMeasure it ≤ n → takeKeys n it = it.keys := by
  intro n
  induction n with
  | zero =>
    intro it h
    obtain ⟨ps, rows, elems⟩ := it
    obtain ⟨he, hr⟩ := itMeasure_zero ps rows elems (Nat.le_zero.mp h)
    subst he; subst hr
    rfl
  | succ n ih =>
    intro it h
    rw [keys_eq_next it]
    simp only [takeKeys]
    cases h2 : it.next with
    | none => rfl
    | some p =>
      obtain ⟨k, it2⟩ := p
      have hm2 := next_some_measure it k it2 h2
      exact congrArg (k :: ·) (ih it2 (by omega))

/-! ## C8: eager and lazy parses agree -/

/-- C8: for every document, the eager `Keyboard` deserialisation and the
lazy `KeyIterator` deserialisation agree: the collected key list of the
former equals, key for key, the sequence produced by exhausting the
latter. -/
theorem claim8_eager_lazy_agree (css : String → Option Color) (j : Json) :
    (Keyboard.deserialize css j).map Keyboard.keys =
      (KeyIterator.deserialize css j).map
        (fun it => takeKeys (itMeasure it) it) := by
  cases h : KleKeyboard.deserialize css j with
  | error e =>
    simp [Keyboard.deserialize, KeyIterator.deserialize, h, Except.map]
  | ok kk =>
    simp [Keyboard.deserialize, KeyIterator.deserialize, h, Except.map]
    exact (takeKeys_eq_keys (itMeasure (KleLayoutIterator.new kk.layout))
      (KleLayoutIterator.new kk.layout) le_rfl).symm

/-! ## C9: empty rows end the iteration -/

theorem keysFuel_empty_row_append :
    ∀ fuel ps elems rows1 rows2,
      keysFuel fuel ⟨ps, rows1 ++ [] :: rows2, elems⟩ =
        keysFuel fuel ⟨ps, rows1, elems⟩ := by
  intro fuel
  induction fuel with
  | zero => intro ps elems rows1 rows2; rfl
  | succ fuel ih =>
    intro ps elems rows1 rows2
    cases elems with
    | cons e rest =>
      cases e with
      | Props pr => simp only [keysFuel]; exact ih _ _ _ _
      | Legend s => simp only [keysFuel]; rw [ih]
    | nil =>
      cases rows1 with
      | nil => simp only [List.nil_append, keysFuel]
      | cons row rows1' =>
        cases row with
        | nil => simp only [List.cons_append, keysFuel]
        | cons e rest =>
          simp only [List.cons_append, keysFuel]
          exact ih _ _ _ _

/-- C9 counterexample: in the document `[[],["A"]]` the first (and only)
empty row does not end the iteration — the key `"A"` from the following
row is still produced, contradicting the claim that no key is produced
from any row after the first empty row. -/
theorem claim9_counterexample :
    ((KleLayoutIterator.new [[], [KleLegendsOrProps.Legend "A"]]).keys.map
      (fun k => (k.legends.headD none).map Legend.text)) = [some "A"] := rfl

/-- C9 (amended): the iterator stops at an empty row it fetches after the
preloaded first row: every row after an empty row at index ≥ 1 contributes
no keys.  (An empty row at index 0 is merely skipped, as the
counterexample shows.) -/
theorem claim9_empty_row_truncates (r0 : List KleLegendsOrProps)
    (rows1 rows2 : List (List KleLegendsOrProps)) :
    (KleLayoutIterator.new (r0 :: (rows1 ++ [] :: rows2))).keys =
      (KleLayoutIterator.new (r0 :: rows1)).keys := by
  show keysFuel (itMeasure ⟨KleProps.default, rows1 ++ [] :: rows2, r0⟩ + 1)
      ⟨KleProps.default, rows1 ++ [] :: rows2, r0⟩ =
    keysFuel (itMeasure ⟨KleProps.default, rows1, r0⟩ + 1)
      ⟨KleProps.default, rows1, r0⟩
  rw [keysFuel_empty_row_append]
  apply keysFuel_congr
  · have : itMeasure ⟨KleProps.default, rows1, r0⟩ ≤
        itMeasure ⟨KleProps.default, rows1 ++ [] :: rows2, r0⟩ := by
      simp [itMeasure, List.map_append, List.sum_append]
    omega
  · omega

/-- Witness for C2 at the offending value 8. -/
theorem claim2_alignment_error_witness :
    MAX_ALIGNMENT < 8 ∧
    Alignment.deserialize 8 =
      Except.error (DeError.invalidValue (Unexpected.unsigned 8)
        ("0 <= x <= " ++ toString MAX_ALIGNMENT)) ∧
    KleKeyboard.deserialize (fun _ => none)
        (Json.arr [Json.arr [Json.obj [("a", Json.num ((8 : Nat) : Rat))],
          Json.str "A"]]) =
      Except.error (DeError.custom
        "data did not match any variant of untagged enum MapOrSeq") := by
  have h := claim2_alignment_error 8 (by decide)
  exact ⟨by decide, h.1, h.2.1 (fun _ => none)⟩

/-! ## C7: classification of the first document element -/

/-- Rows parsed by `parseRows` can only come from JSON arrays. -/
theorem parseRows_shapes (css : String → Option Color) :
    ∀ (rest : List Json) rows,
      parseRows css rest = Except.ok rows →
      ∀ e ∈ rest, ∃ elems, e = Json.arr elems := by
  intro rest
  induction rest with
  | nil => intro rows _ e he; exact absurd he (List.not_mem_nil e)
  | cons e0 rest ih =>
    intro rows h e he
    simp only [parseRows] at h
    cases h0 : rowDeserialize css e0 with
    | error err => rw [h0] at h; simp at h
    | ok row0 =>
      rcases List.mem_cons.mp he with rfl | he'
      · cases e <;> first
          | exact ⟨_, rfl⟩
          | simp [rowDeserialize] at h0
      · rw [h0] at h
        cases h1 : parseRows css rest with
        | error err => rw [h1] at h; simp at h
        | ok xs => exact ih xs h1 e he'

/-- C7: classification of the top-level array's first element.  An empty
array yields all-default metadata and no keys; an object first element
becomes the metadata record (unknown fields ignored) and every remaining
element must parse as a row; an array first element is itself the first
row and there is no metadata record. -/
theorem claim7_document_shape (css : String → Option Color)
    (fields : List (String × Json)) (rest : List Json) (k : String) (v : Json)
    (es : List Json) :
    (KleKeyboard.deserialize css (Json.arr []) =
      Except.ok ⟨KleMetadata.default, []⟩ ∧
     Keyboard.deserialize css (Json.arr []) =
      Except.ok ⟨Metadata.default, []⟩) ∧
    (∀ m rows, KleMetadata.deserialize css (Json.obj fields) = Except.ok m →
      parseRows css rest = Except.ok rows →
      KleKeyboard.deserialize css (Json.arr (Json.obj fields :: rest)) =
        Except.ok ⟨m, rows⟩) ∧
    (k ∉ kleMetadataKeys →
      KleMetadata.deserialize css (Json.obj ((k, v) :: fields)) =
        KleMetadata.deserialize css (Json.obj fields)) ∧
    (∀ kb, KleKeyboard.deserialize css (Json.arr (Json.obj fields :: rest)) =
        Except.ok kb →
      ∀ e ∈ rest, ∃ elems, e = Json.arr elems) ∧
    (∀ row rows, rowDeserialize css (Json.arr es) = Except.ok row →
      parseRows css rest = Except.ok rows →
      KleKeyboard.deserialize css (Json.arr (Json.arr es :: rest)) =
        Except.ok ⟨KleMetadata.default, row :: rows⟩) := by
  refine ⟨⟨rfl, rfl⟩, ?_, ?_, ?_, ?_⟩
  · intro m rows hm hrows
    simp [KleKeyboard.deserialize, MapOrSeq.deserialize, rowDeserialize, hm,
      hrows]
  · intro hk
    simp only [kleMetadataKeys, List.mem_cons, List.not_mem_nil, or_false,
      not_or] at hk
    obtain ⟨h1, h2, h3, h4, h5, h6, h7, h8, h9, h10, h11, h12⟩ := hk
    simp only [KleMetadata.deserialize, getField, getEntry, h1, h2, h3, h4,
      h5, h6, h7, h8, h9, h10, h11, h12, if_false, ite_false]
  · intro kb hkb e he
    cases h1 : parseRows css rest with
    | ok rows => exact parseRows_shapes css rest rows h1 e he
    | error err =>
      exfalso
      cases h2 : MapOrSeq.deserialize css (Json.obj fields) with
      | error e2 =>
        simp [KleKeyboard.deserialize, h2] at hkb
      | ok ms =>
        cases ms with
        | Seq row =>
          simp [KleKeyboard.deserialize, h2, h1] at hkb
        | Map meta =>
          simp [KleKeyboard.deserialize, h2, h1] at hkb
  · intro row rows hrow hrows
    simp [KleKeyboard.deserialize, MapOrSeq.deserialize, hrow, hrows]

/-- Witness for C7: the document
`[{"name":"test","unknown":"key"},["A"]]` parses with metadata from the
object (the unrecognised key ignored) and one row; its rows are arrays;
and `[["A"]]` parses with default metadata and the first element as first
row. -/
theorem claim7_document_shape_witness :
    KleKeyboard.deserialize (fun _ => none) (Json.arr []) =
      Except.ok ⟨KleMetadata.default, []⟩ ∧
    KleKeyboard.deserialize (fun _ => none)
        (Json.arr [Json.obj [("name", Json.str "test"),
          ("unknown", Json.str "key")], Json.arr [Json.str "A"]]) =
      Except.ok ⟨⟨none, none, none, some "test", none, none, none, none,
        none, none, none, none⟩, [[KleLegendsOrProps.Legend "A"]]⟩ ∧
    KleMetadata.deserialize (fun _ => none)
        (Json.obj [("unknown", Json.str "key"), ("name", Json.str "test")]) =
      KleMetadata.deserialize (fun _ => none)
        (Json.obj [("name", Json.str "test")]) ∧
    KleKeyboard.deserialize (fun _ => none)
        (Json.arr [Json.arr [Json.str "A"], Json.arr [Json.str "D"]]) =
      Except.ok ⟨KleMetadata.default,
        [[KleLegendsOrProps.Legend "A"], [KleLegendsOrProps.Legend "D"]]⟩ := by
  have h1 := (claim7_document_shape (fun _ => none)
    [("name", Json.str "test"), ("unknown", Json.str "key")]
    [Json.arr [Json.str "A"]] "unknown" (Json.str "key") []).2.1
    ⟨none, none, none, some "test", none, none, none, none, none, none,
      none, none⟩ [[KleLegendsOrProps.Legend "A"]] rfl rfl
  have h2 := (claim7_document_shape (fun _ => none)
    [("name", Json.str "test")] [] "unknown" (Json.str "key") []).2.2.1
    (by decide)
  have h3 := (claim7_document_shape (fun _ => none) []
    [Json.arr [Json.str "D"]] "unknown" (Json.str "key")
    [Json.str "A"]).2.2.2.2
    [KleLegendsOrProps.Legend "A"] [[KleLegendsOrProps.Legend "D"]] rfl rfl
  have h0 := (claim7_document_shape (fun _ => none) [] [] "unknown"
    (Json.str "key") []).1
  exact ⟨h0.1, h1, h2, h3⟩

/-! ## C10: realignment of a short legend blob -/

/-- With fewer than 12 input slots, realignment packs the inputs into
output slots `0 .. n-1`, ordered by ascending target slot, leaving slots
`n .. 11` empty. -/
theorem realign_short (al : Alignment) (vs : List (Option Legend))
    (h : vs.length < NUM_LEGENDS) :
    ∃ perm : List Nat,
      perm.Perm (List.range vs.length) ∧
      (perm.map (fun i =>
        ((LEGEND_MAPPING.getD al.val []).take vs.length).getD i
          NUM_LEGENDS)).Pairwise (· < ·) ∧
      (∀ j, j < vs.length →
        (realign_legends vs al).getD j none =
          vs.getD (perm.getD j 0) none) ∧
      (∀ j, vs.length ≤ j → j < NUM_LEGENDS →
        (realign_legends vs al).getD j none = none) := by
  have hb : al.val ≤ 7 := max_alignment_eq ▸ al.isLe
  have hm12 : (LEGEND_MAPPING.getD al.val []).length = NUM_LEGENDS :=
    legend_mapping_length al.val hb
  have hmnd : (LEGEND_MAPPING.getD al.val []).Nodup :=
    legend_mapping_nodup al.val hb
  have h12 : vs.length < 12 := h
  have hKlen : ((LEGEND_MAPPING.getD al.val []).zip
      (List.range vs.length)).length = vs.length := by
    rw [List.length_zip, hm12, List.length_range]
    exact Nat.min_eq_right (Nat.le_of_lt h)
  -- the values zip is the index zip relabelled through vs
  have hzip_eq : (LEGEND_MAPPING.getD al.val []).zip vs =
      ((LEGEND_MAPPING.getD al.val []).zip (List.range vs.length)).map
        (fun p => (p.1, vs.getD p.2 none)) := by
    apply List.ext_getElem
    · simp [List.length_zip, hm12]
    · intro i h1 h2
      have hi : i < vs.length := by
        simp [List.length_zip, hm12] at h1
        omega
      simp [List.getElem_zip, List.getElem_map, List.getElem_range]
      rw [List.getElem?_eq_getElem hi]
      rfl
  -- data independence of the stable sort
  have hsortmap : (List.insertionSort keyLe
      ((LEGEND_MAPPING.getD al.val []).zip vs)).map Prod.snd =
      ((List.insertionSort keyLe ((LEGEND_MAPPING.getD al.val []).zip
        (List.range vs.length))).map Prod.snd).map
        (fun i => vs.getD i none) := by
    rw [hzip_eq,
      ← List.map_insertionSort keyLe keyLe (fun p => (p.1, vs.getD p.2 none))
        ((LEGEND_MAPPING.getD al.val []).zip (List.range vs.length))
        (fun a _ b _ => Iff.rfl),
      List.map_map, List.map_map]
    rfl
  -- realignment output below 12 is the sorted value list
  have hout : ∀ j, j < NUM_LEGENDS → (realign_legends vs al).getD j none =
      ((List.insertionSort keyLe
        ((LEGEND_MAPPING.getD al.val []).zip vs)).map Prod.snd).getD j
        none := by
    intro j hj
    rw [realign_legends_def, List.getD_eq_getElem _ _ (by simpa using hj)]
    simp [List.getElem_map, List.getElem_range]
  have hvals_len : ((List.insertionSort keyLe
      ((LEGEND_MAPPING.getD al.val []).zip vs)).map Prod.snd).length =
      vs.length := by
    rw [List.length_map, List.length_insertionSort, List.length_zip, hm12]
    omega
  have hplen : ((List.insertionSort keyLe
      ((LEGEND_MAPPING.getD al.val []).zip
        (List.range vs.length))).map Prod.snd).length = vs.length := by
    rw [List.length_map, List.length_insertionSort, hKlen]
  refine ⟨(List.insertionSort keyLe ((LEGEND_MAPPING.getD al.val []).zip
    (List.range vs.length))).map Prod.snd, ?_, ?_, ?_, ?_⟩
  · -- the emission order is a permutation of the raw slot order
    have h1 := (List.perm_insertionSort keyLe
      ((LEGEND_MAPPING.getD al.val []).zip
        (List.range vs.length))).map Prod.snd
    have h2 : ((LEGEND_MAPPING.getD al.val []).zip
        (List.range vs.length)).map Prod.snd = List.range vs.length :=
      List.map_snd_zip _ _ (by rw [List.length_range, hm12]; omega)
    exact h1.trans (by rw [h2])
  · -- targets are strictly ascending along the emitted order
    have hts_len : ((LEGEND_MAPPING.getD al.val []).take vs.length).length =
        vs.length := by
      rw [List.length_take, hm12]
      omega
    have hKfst : ((LEGEND_MAPPING.getD al.val []).zip
        (List.range vs.length)).map Prod.fst =
        (LEGEND_MAPPING.getD al.val []).take vs.length := by
      apply List.ext_getElem
      · rw [List.length_map, hKlen, hts_len]
      · intro i h1 h2
        simp [List.getElem_map, List.getElem_zip, List.getElem_take]
    have hts_nodup : ((LEGEND_MAPPING.getD al.val []).take
        vs.length).Nodup := hmnd.sublist (List.take_sublist _ _)
    have hfst_nodup : ((List.insertionSort keyLe
        ((LEGEND_MAPPING.getD al.val []).zip
          (List.range vs.length))).map Prod.fst).Nodup := by
      have hp : ((List.insertionSort keyLe
          ((LEGEND_MAPPING.getD al.val []).zip
            (List.range vs.length))).map Prod.fst).Perm
          ((LEGEND_MAPPING.getD al.val []).take vs.length) := by
        have := (List.perm_insertionSort keyLe
          ((LEGEND_MAPPING.getD al.val []).zip
            (List.range vs.length))).map Prod.fst
        rw [hKfst] at this
        exact this
      exact hp.nodup_iff.mpr hts_nodup
    have hle : (List.insertionSort keyLe
        ((LEGEND_MAPPING.getD al.val []).zip
          (List.range vs.length))).Pairwise keyLe :=
      List.sorted_insertionSort keyLe _
    have hne : (List.insertionSort keyLe
        ((LEGEND_MAPPING.getD al.val []).zip
          (List.range vs.length))).Pairwise
        (fun p q => p.1 ≠ q.1) := List.pairwise_map.mp hfst_nodup
    have hlt : (List.insertionSort keyLe
        ((LEGEND_MAPPING.getD al.val []).zip
          (List.range vs.length))).Pairwise
        (fun p q => p.1 < q.1) :=
      (hle.and hne).imp (fun hab => lt_of_le_of_ne hab.1 hab.2)
    have hmem : ∀ p ∈ List.insertionSort keyLe
        ((LEGEND_MAPPING.getD al.val []).zip (List.range vs.length)),
        ((LEGEND_MAPPING.getD al.val []).take vs.length).getD p.2
          NUM_LEGENDS = p.1 := by
      intro p hp
      have hpK : p ∈ (LEGEND_MAPPING.getD al.val []).zip
          (List.range vs.length) := (List.mem_insertionSort keyLe).mp hp
      obtain ⟨i, hi, hKi⟩ := List.mem_iff_getElem.mp hpK
      have hin : i < vs.length := by
        rw [hKlen] at hi
        exact hi
      have him : i < (LEGEND_MAPPING.getD al.val []).length := by omega
      have hKi2 : ((LEGEND_MAPPING.getD al.val []).zip
          (List.range vs.length))[i] =
          ((LEGEND_MAPPING.getD al.val [])[i], i) := by
        simp [List.getElem_zip, List.getElem_range]
      rw [hKi2] at hKi
      rw [← hKi]
      have hits : i < ((LEGEND_MAPPING.getD al.val []).take
          vs.length).length := by
        rw [List.length_take, hm12]
        omega
      rw [List.getD_eq_getElem _ _ hits, List.getElem_take]
    rw [List.map_map]
    have hmapeq : (List.insertionSort keyLe
        ((LEGEND_MAPPING.getD al.val []).zip (List.range vs.length))).map
        ((fun i => ((LEGEND_MAPPING.getD al.val []).take vs.length).getD i
          NUM_LEGENDS) ∘ Prod.snd) =
        (List.insertionSort keyLe ((LEGEND_MAPPING.getD al.val []).zip
          (List.range vs.length))).map Prod.fst :=
      List.map_congr_left (fun p hp => hmem p hp)
    rw [hmapeq]
    exact List.pairwise_map.mpr hlt
  · -- slots below the input length hold the inputs, sorted by target
    intro j hj
    rw [hout j (by omega), hsortmap]
    have hjp : j < (List.map Prod.snd (List.insertionSort keyLe
        ((LEGEND_MAPPING.getD al.val []).zip
          (List.range vs.length)))).length := by
      rw [hplen]; exact hj
    have hj2 : j < (List.map (fun i => vs.getD i none)
        (List.map Prod.snd (List.insertionSort keyLe
          ((LEGEND_MAPPING.getD al.val []).zip
            (List.range vs.length))))).length := by
      rw [List.length_map]; exact hjp
    simp only [List.getD_eq_getElem _ _ hj2, List.getD_eq_getElem _ _ hjp,
      List.getElem_map]
  · -- slots from the input length up are empty
    intro j hj1 hj2
    rw [hout j hj2]
    exact List.getD_eq_default _ _ (by rw [hvals_len]; omega)

/-- An empty line occupies its input slot and gives an absent legend. -/
theorem legendSlots_getD_empty (ps : KleProps) (blob : String) (i : Nat)
    (hi : i < (ps.legendSlots blob).length)
    (hempty : (rustLines blob).getD i "" = "") :
    (ps.legendSlots blob).getD i none = none := by
  have hil : i < (rustLines blob).length := by
    have hi' := hi
    simp only [KleProps.legendSlots, List.length_map, List.length_zip] at hi'
    omega
  have hline : (rustLines blob)[i] = "" := by
    rw [List.getD_eq_getElem _ _ hil] at hempty
    exact hempty
  rw [List.getD_eq_getElem _ _ hi]
  simp only [KleProps.legendSlots]
  rw [List.getElem_map, List.getElem_zip]
  simp [hline]

/-- C10: `build_key` passes only the blob's lines (zipped with the 12-slot
font and colour arrays) to realignment; for fewer than 12 lines the
realigned output packs the slots contiguously into output positions
`0 .. n-1` in ascending order of their mapped target slots — not at the
target slots themselves — leaving positions `n .. 11` empty; an empty line
still occupies its input slot and yields an empty output slot. -/
theorem claim10_short_legend_blob (al : Alignment) (vs : List (Option Legend))
    (h : vs.length < NUM_LEGENDS) :
    (∀ (ps : KleProps) (blob : String),
      (ps.build_key blob).legends =
        realign_legends (ps.legendSlots blob) ps.a) ∧
    (∀ (ps : KleProps) (blob : String),
      ps.fa.length = NUM_LEGENDS → ps.ta.length = NUM_LEGENDS →
      (ps.legendSlots blob).length =
        min (rustLines blob).length NUM_LEGENDS) ∧
    (∀ (ps : KleProps) (blob : String) (i : Nat),
      i < (ps.legendSlots blob).length →
      (rustLines blob).getD i "" = "" →
      (ps.legendSlots blob).getD i none = none) ∧
    (∃ perm : List Nat,
      perm.Perm (List.range vs.length) ∧
      (perm.map (fun i =>
        ((LEGEND_MAPPING.getD al.val []).take vs.length).getD i
          NUM_LEGENDS)).Pairwise (· < ·) ∧
      (∀ j, j < vs.length →
        (realign_legends vs al).getD j none =
          vs.getD (perm.getD j 0) none) ∧
      (∀ j, vs.length ≤ j → j < NUM_LEGENDS →
        (realign_legends vs al).getD j none = none)) := by
  refine ⟨fun ps blob => rfl, ?_, legendSlots_getD_empty,
    realign_short al vs h⟩
  intro ps blob hfa hta
  simp [KleProps.legendSlots, List.length_zip, hfa, hta]

/-- Witness for C10: a two-line blob `"A\nB"` on the default cursor
(alignment 4, whose targets for raw slots 0 and 1 are 0 and 6) puts its
two legends in output slots 0 and 1 and leaves the rest empty. -/
theorem claim10_short_legend_blob_witness :
    ((KleProps.default.build_key "A\nB").legends =
      realign_legends (KleProps.default.legendSlots "A\nB")
        KleProps.default.a) ∧
    (KleProps.default.legendSlots "A\nB").length =
      min (rustLines "A\nB").length NUM_LEGENDS ∧
    (KleProps.default.legendSlots "A\n\nB").getD 1 none = none ∧
    ∃ perm : List Nat,
      perm.Perm (List.range 2) ∧
      (perm.map (fun i =>
        ((LEGEND_MAPPING.getD (4 : Nat) []).take 2).getD i
          NUM_LEGENDS)).Pairwise (· < ·) ∧
      (∀ j, j < 2 →
        (realign_legends
            [some ⟨"A", 3, color.LEGEND⟩, some ⟨"B", 3, color.LEGEND⟩]
            ⟨4, by decide⟩).getD j none =
          ([some ⟨"A", 3, color.LEGEND⟩, some ⟨"B", 3, color.LEGEND⟩] :
            List (Option Legend)).getD (perm.getD j 0) none) ∧
      (∀ j, 2 ≤ j → j < NUM_LEGENDS →
        (realign_legends
            [some ⟨"A", 3, color.LEGEND⟩, some ⟨"B", 3, color.LEGEND⟩]
            ⟨4, by decide⟩).getD j none = none) := by
  have h := claim10_short_legend_blob ⟨4, by decide⟩
    [some ⟨"A", 3, color.LEGEND⟩, some ⟨"B", 3, color.LEGEND⟩] (by decide)
  exact ⟨h.1 KleProps.default "A\nB",
    h.2.1 KleProps.default "A\nB" rfl rfl,
    h.2.2.1 KleProps.default "A\n\nB" 1 (by decide) rfl,
    h.2.2.2⟩

end Kle
